import Mathlib

/-!
Verification of the request-scoped batching and memoization engine
("batch loader") of the Go_Basic_API repository.

The repository wires the external `graph-gophers/dataloader/v7` library
through three pieces of its own code, embedded here from the source:

* `src/internal/middleware/dataloader.go` — `DataLoaderMiddleware`,
  with its user batch function closure;
* `src/pkg/utils/dataloader.go` — `Loaders`, `GetLoadersFromContext`,
  `NewLoaders`, `LoadUser`, `LoadUsers`;
* `src/internal/models` — `models.User`.

The loader engine itself (memoization table, dispatch queue, batch-size
splitting) lives in the external library, whose source is not part of the
repository; its behavior is modelled from the specification (each such
definition is marked `Modelled from the spec:`).  Go pointers are
modelled as `Option`, Go `error` values as `Option Err`, and the mutable
loader as explicit state passing.
-/

/-- A Go `error` value, identified by its message string. -/
abbrev Err := String

/-- Embeds `models.User` (src/internal/models): the scalar fields of the
GORM model; the timestamp and soft-delete bookkeeping fields play no role
in the loader and are omitted. -/
structure UserV where
  id : Nat
  email : String
  username : String
  password : String
  fullName : String
  role : String
  active : Bool
deriving DecidableEq, Repr

/-- Embeds `dataloader.Result[*models.User]`: `Data` is a Go pointer
(`Option`), `Error` a Go error (`Option Err`). -/
structure DLResult where
  data : Option UserV
  error : Option Err
deriving DecidableEq, Repr

/-- The `Result` a Go zero value would give; used only as a `getD`
default on lookups that cannot fail. -/
def noResult : DLResult := { data := none, error := none }

/-- First-match association-list lookup, the behavior of a Go map read
`v, found := m[k]` (`none` = not found). -/
def lookupK {β : Type} (k : Nat) : List (Nat × β) → Option β
  | [] => none
  | (k₂, v) :: rest => if k = k₂ then some v else lookupK k rest

/-- Keeps the first occurrence of each key, dropping later duplicates:
the deduplication order the loader uses (keys in first-enqueued order). -/
def dedupFirst : List Nat → List Nat
  | [] => []
  | k :: ks => k :: dedupFirst (ks.filter (fun x => x != k))
termination_by l => l.length
decreasing_by
  simp only [List.length_cons]
  exact Nat.lt_succ_of_le (ks.length_filter_le _)

/-- Splits a key list into consecutive batches of at most `n` keys
(every batch nonempty; `n = 0` degenerates to singleton batches). -/
def chunkList (n : Nat) : List Nat → List (List Nat)
  | [] => []
  | k :: ks => (k :: ks.take (n - 1)) :: chunkList n (ks.drop (n - 1))
termination_by l => l.length
decreasing_by
  simp only [List.length_cons, List.length_drop]
  omega

/-- The backing store behind `userRepo`: the user table plus an optional
whole-call failure of the multi-key query. -/
structure DB where
  table : List (Nat × UserV)
  failure : Option Err
deriving DecidableEq

/-- Modelled from the spec: `userRepo.GetUsersByIDs`, the backing
multi-key fetch called by the middleware's batch function.  Its
implementation is absent from the repository sources (only the call site
in `DataLoaderMiddleware` exists); per the spec it performs one "fetch
all matching these identifiers" query, returning a map from id to user
plus an error when the backing call fails entirely.  Map values are Go
pointers, hence `Option UserV`. -/
def GetUsersByIDs (db : DB) (keys : List Nat) :
    List (Nat × Option UserV) × Option Err :=
  match db.failure with
  | some e => ([], some e)
  | none =>
      ((db.table.filter (fun p => keys.contains p.1)).map
        (fun p => (p.1, some p.2)), none)

/-- The per-key body of the middleware's batch function
(src/internal/middleware/dataloader.go, loop of `userBatchFn`): a repo
error makes the key resolve to that error; otherwise a missing map entry
resolves to `{Data: nil, Error: nil}` and a present entry to its
(pointer) value. -/
def userBatchResult (userMap : List (Nat × Option UserV)) (err : Option Err)
    (key : Nat) : DLResult :=
  match err with
  | some e => { data := none, error := some e }
  | none =>
      match lookupK key userMap with
      | none => { data := none, error := none }
      | some user => { data := user, error := none }

/-- Embeds the batch function closure built in `DataLoaderMiddleware`
(src/internal/middleware/dataloader.go:18-39): one repo call for the
whole key slice, then one result per key preserving order. -/
def userBatchFn (fetch : List Nat → List (Nat × Option UserV) × Option Err)
    (keys : List Nat) : List DLResult :=
  let res := fetch keys
  keys.map (userBatchResult res.1 res.2)

/-- Modelled from the spec: the loader's mutable per-instance state — the
write-once MemoizationTable, plus the log of Batch Fetch Function
invocations already performed (each entry one dispatched batch). -/
structure LoaderState where
  cache : List (Nat × DLResult)
  calls : List (List Nat)
deriving DecidableEq

/-- The state of a freshly constructed Loader Instance: nothing memoized,
no batch invoked. -/
def initLoaderState : LoaderState := { cache := [], calls := [] }

/-- The outcome written for a dispatched key the batch function returned
no result for (a violation of the length contract). -/
def lengthMismatchResult : DLResult :=
  { data := none, error := some "batch function returned fewer results than keys" }

/-- Cache entries written back after dispatching batch `b` with results
`rs`: outcome `rs[i]` is matched to key `b[i]`; a key beyond the result
slice (a batch function violating the length contract) is resolved to
`lengthMismatchResult`, so every dispatched key always gets an entry. -/
def batchEntries : List Nat → List DLResult → List (Nat × DLResult)
  | [], _ => []
  | k :: ks, [] => (k, lengthMismatchResult) :: batchEntries ks []
  | k :: ks, r :: rs => (k, r) :: batchEntries ks rs

/-- Modelled from the spec: one dispatch — a single invocation of the
Batch Fetch Function on batch `b`, its results written back into the
memoization table and the invocation logged. -/
def dispatchBatch (bf : List Nat → List DLResult) (s : LoaderState)
    (b : List Nat) : LoaderState :=
  { cache := s.cache ++ batchEntries b (bf b),
    calls := s.calls ++ [b] }

/-- Modelled from the spec: the keys of a load request that actually need
fetching — already-memoized keys removed, remaining keys deduplicated in
first-enqueued order. -/
def pendingKeys (cache : List (Nat × DLResult)) (keys : List Nat) : List Nat :=
  dedupFirst (keys.filter (fun k => (lookupK k cache).isNone))

/-- The batches a load request will dispatch: pending keys split into
consecutive batches of at most `cap` keys. -/
def dispatchedBatches (cap : Nat) (s : LoaderState) (keys : List Nat) :
    List (List Nat) :=
  chunkList cap (pendingKeys s.cache keys)

/-- Modelled from the spec: resolution of a load request — every pending
batch is dispatched in turn against the batch function. -/
def resolveKeys (bf : List Nat → List DLResult) (cap : Nat) (s : LoaderState)
    (keys : List Nat) : LoaderState :=
  (dispatchedBatches cap s keys).foldl (dispatchBatch bf) s

/-- The memoized outcome for key `k` (total: after `resolveKeys` every
requested key has a cache entry, so the default is never read). -/
def resolvedResult (s : LoaderState) (k : Nat) : DLResult :=
  (lookupK k s.cache).getD noResult

/-- Modelled from the spec: `Loader.Load` — resolve the key (a cache hit
dispatches nothing), then hand its memoized outcome to the caller. -/
def loadOne (bf : List Nat → List DLResult) (cap : Nat) (s : LoaderState)
    (k : Nat) : DLResult × LoaderState :=
  let s₂ := resolveKeys bf cap s [k]
  (resolvedResult s₂ k, s₂)

/-- Modelled from the spec: `Loader.LoadMany` — resolve all keys at once
(deduplicated fetch), then return one outcome per input position,
duplicates included. -/
def loadManyOp (bf : List Nat → List DLResult) (cap : Nat) (s : LoaderState)
    (ks : List Nat) : List DLResult × LoaderState :=
  let s₂ := resolveKeys bf cap s ks
  (ks.map (resolvedResult s₂), s₂)

/-- Embeds `dataloader.Loader[uint, *models.User]` as configured by this
repository: the only batch function ever installed is the middleware's
closure over the user repository, so the installed function is
represented by the `DB` behind it; `capacity` is the configured
`WithBatchCapacity` and `state` the mutable loader state. -/
structure UserLoaderV where
  db : DB
  capacity : Nat
  state : LoaderState
deriving DecidableEq

/-- The batch function installed in a user loader: the middleware closure
over its backing repository. -/
def installedBatchFn (l : UserLoaderV) : List Nat → List DLResult :=
  userBatchFn (GetUsersByIDs l.db)

/-- Embeds `utils.Loaders` (src/pkg/utils/dataloader.go): holds all
dataloaders for the application — here the single `UserLoader`. -/
structure LoadersV where
  userLoader : UserLoaderV
deriving DecidableEq

/-- Embeds `utils.NewLoaders`: builds the user loader from the supplied
batch function with `dataloader.WithBatchCapacity(100)`; its state starts
fresh. -/
def NewLoaders (db : DB) : LoadersV :=
  { userLoader := { db := db, capacity := 100, state := initLoaderState } }

/-- A context key: Go context keys are typed, so the private
`loaderContextKey("loader_key")` and any foreign key are distinct
constructors; a foreign string key can never collide with it. -/
inductive CtxKey where
  | loaderKey : CtxKey
  | otherKey : String → CtxKey
deriving DecidableEq

/-- A value stored in a context: either a `*Loaders` pointer (possibly
nil) or a value of some other type. -/
inductive CtxValue where
  | loadersVal : Option LoadersV → CtxValue
  | otherVal : String → CtxValue
deriving DecidableEq

/-- A Go `context.Context` value chain, innermost `WithValue` first;
`Value(k)` is a first-match lookup. -/
structure Ctx where
  entries : List (CtxKey × CtxValue)
deriving DecidableEq

/-- The empty root context. -/
def emptyCtx : Ctx := { entries := [] }

/-- First-match lookup over a context-entry chain. -/
def ctxEntriesValue (k : CtxKey) : List (CtxKey × CtxValue) → Option CtxValue
  | [] => none
  | (k₂, v) :: rest => if k = k₂ then some v else ctxEntriesValue k rest

/-- `ctx.Value(k)` lookup over the chain. -/
def ctxValue (ctx : Ctx) (k : CtxKey) : Option CtxValue :=
  ctxEntriesValue k ctx.entries

/-- `context.WithValue(ctx, k, v)`. -/
def ctxWithValue (ctx : Ctx) (k : CtxKey) (v : CtxValue) : Ctx :=
  { entries := (k, v) :: ctx.entries }

/-- Embeds `utils.GetLoadersFromContext` (src/pkg/utils/dataloader.go:25-32):
the type assertion `ctx.Value(LoaderKey).(*Loaders)` fails on a missing
key or a value of another type, and a nil pointer is also rejected —
all three give `nil`. -/
def GetLoadersFromContext (ctx : Ctx) : Option LoadersV :=
  match ctxValue ctx CtxKey.loaderKey with
  | some (CtxValue.loadersVal (some loaders)) => some loaders
  | _ => none

/-- The error `LoadUser`/`LoadUsers` return when no registry is attached
(`fmt.Errorf("loaders not found in context")`). -/
def loadersNotFoundErr : Err := "loaders not found in context"

/-- Replaces the loader state held behind the context's `*Loaders`
pointer: models the in-place mutation the Go loader performs (the
context keeps pointing at the same, now-updated, instance). -/
def ctxSetLoaderState (ctx : Ctx) (l : LoadersV) (s : LoaderState) : Ctx :=
  ctxWithValue ctx CtxKey.loaderKey
    (CtxValue.loadersVal (some { l with userLoader := { l.userLoader with state := s } }))

/-- Embeds `utils.LoadUser` (src/pkg/utils/dataloader.go:50-58): fetch the
registry from the context (error when absent), then `Load` the key and
force the thunk, which yields the Go pair `(*models.User, error)`.  The
updated context stands for the loader's in-place state mutation. -/
def LoadUser (ctx : Ctx) (userID : Nat) :
    (Option UserV × Option Err) × Ctx :=
  match GetLoadersFromContext ctx with
  | none => ((none, some loadersNotFoundErr), ctx)
  | some loaders =>
      let r := loadOne (installedBatchFn loaders.userLoader)
        loaders.userLoader.capacity loaders.userLoader.state userID
      ((r.1.data, r.1.error), ctxSetLoaderState ctx loaders r.2)

/-- Embeds `utils.LoadUsers` (src/pkg/utils/dataloader.go:61-69): fetch
the registry from the context — when absent, return the Go pair
`(nil, []error{err})`, i.e. a nil values slice and a one-element error
slice; otherwise `LoadMany` the keys and force the thunk, one value and
one (possibly nil) error per input position. -/
def LoadUsers (ctx : Ctx) (userIDs : List Nat) :
    (Option (List (Option UserV)) × List (Option Err)) × Ctx :=
  match GetLoadersFromContext ctx with
  | none => ((none, [some loadersNotFoundErr]), ctx)
  | some loaders =>
      let r := loadManyOp (installedBatchFn loaders.userLoader)
        loaders.userLoader.capacity loaders.userLoader.state userIDs
      ((some (r.1.map DLResult.data), r.1.map DLResult.error),
        ctxSetLoaderState ctx loaders r.2)

/-- Embeds `middleware.DataLoaderMiddleware`
(src/internal/middleware/dataloader.go:15-50): each invocation builds a
fresh batch closure over the request's user repository, a fresh
`Loaders` via `NewLoaders`, and attaches it to that request's context
under `LoaderKey`. -/
def DataLoaderMiddleware (db : DB) (ctx : Ctx) : Ctx :=
  ctxWithValue ctx CtxKey.loaderKey (CtxValue.loadersVal (some (NewLoaders db)))

/-- The observable outcome of `LoadUser` for key `k` within a unit of
work freshly wired by the middleware over backing store `db`. -/
def loadUserOutcome (db : DB) (k : Nat) : Option UserV × Option Err :=
  (LoadUser (DataLoaderMiddleware db emptyCtx) k).1

/-- One consumer operation against a Loader Instance. -/
inductive LoadOp where
  | one : Nat → LoadOp
  | many : List Nat → LoadOp

/-- State effect of one consumer operation. -/
def applyOp (bf : List Nat → List DLResult) (cap : Nat) (s : LoaderState) :
    LoadOp → LoaderState
  | LoadOp.one k => (loadOne bf cap s k).2
  | LoadOp.many ks => (loadManyOp bf cap s ks).2

/-- A whole lifetime of a Loader Instance: any sequence of `Load` /
`LoadMany` calls, starting from the fresh state. -/
def runOps (bf : List Nat → List DLResult) (cap : Nat) (ops : List LoadOp)
    (s : LoaderState) : LoaderState :=
  ops.foldl (applyOp bf cap) s

/-- Total number of times key `k` was handed to the Batch Fetch Function
across the logged invocations (counted with multiplicity). -/
def keyOccs (k : Nat) (calls : List (List Nat)) : Nat :=
  (calls.map (fun b => b.count k)).sum

/-- The loader state after a `LoadMany` of `ks` against user loader `l`
has resolved every key. -/
def loaderResolve (l : UserLoaderV) (ks : List Nat) : LoaderState :=
  resolveKeys (installedBatchFn l) l.capacity l.state ks

/-- The call surface the spec claims for `Load`: beyond the value and
the error, the caller can read off an explicit found-flag — some Boolean
derivable from what `LoadUser` hands back, true exactly when the entity
is present in the backing store. -/
def hasFoundFlag : Prop :=
  ∃ flag : Option UserV × Option Err → Bool,
    ∀ (db : DB) (k : Nat),
      flag (loadUserOutcome db k) = (lookupK k db.table).isSome

/-- A sample user for concrete instantiations. -/
def sampleUser : UserV :=
  { id := 1, email := "alice@example.com", username := "alice",
    password := "pw", fullName := "Alice", role := "user", active := true }

/-- A healthy backing store holding `sampleUser` under id 1. -/
def sampleDB : DB := { table := [(1, sampleUser)], failure := none }

/-- A failing backing store that nevertheless holds `sampleUser`. -/
def failDB : DB := { table := [(1, sampleUser)], failure := some "db down" }

/-- A failing backing store holding nothing. -/
def emptyFailDB : DB := { table := [], failure := some "db down" }

/-! ### Lemmas about the list infrastructure -/

theorem lookupK_append_left {β : Type} (k : Nat) (c₁ c₂ : List (Nat × β))
    (v : β) (h : lookupK k c₁ = some v) : lookupK k (c₁ ++ c₂) = some v := by
  induction c₁ with
  | nil => exact absurd h (by simp [lookupK])
  | cons p rest ih =>
      obtain ⟨k₂, w⟩ := p
      by_cases hk : k = k₂
      · simpa [lookupK, hk] using h
      · simp only [lookupK, hk, if_false, List.cons_append] at h ⊢
        exact ih h

theorem lookupK_append_right {β : Type} (k : Nat) (c₁ c₂ : List (Nat × β))
    (h : lookupK k c₁ = none) : lookupK k (c₁ ++ c₂) = lookupK k c₂ := by
  induction c₁ with
  | nil => simp
  | cons p rest ih =>
      obtain ⟨k₂, w⟩ := p
      by_cases hk : k = k₂
      · simp [lookupK, hk] at h
      · simp only [lookupK, hk, if_false, List.cons_append] at h ⊢
        exact ih h

theorem lookupK_eq_none_iff {β : Type} (k : Nat) (c : List (Nat × β)) :
    lookupK k c = none ↔ k ∉ c.map Prod.fst := by
  induction c with
  | nil => simp [lookupK]
  | cons p rest ih =>
      obtain ⟨k₂, w⟩ := p
      by_cases hk : k = k₂ <;> simp [lookupK, hk, ih]

theorem mem_dedupFirst (a : Nat) (l : List Nat) :
    a ∈ dedupFirst l ↔ a ∈ l := by
  induction l using dedupFirst.induct with
  | case1 => simp [dedupFirst]
  | case2 k ks ih =>
      rw [dedupFirst]
      by_cases ha : a = k
      · simp [ha]
      · simp [ha, ih, List.mem_filter]

theorem nodup_dedupFirst (l : List Nat) : (dedupFirst l).Nodup := by
  induction l using dedupFirst.induct with
  | case1 => simp [dedupFirst]
  | case2 k ks ih =>
      rw [dedupFirst]
      refine List.nodup_cons.2 ⟨?_, ih⟩
      intro hk
      rw [mem_dedupFirst] at hk
      simp [List.mem_filter] at hk

theorem dedupFirst_eq_self (l : List Nat) (h : l.Nodup) : dedupFirst l = l := by
  induction l using dedupFirst.induct with
  | case1 => rw [dedupFirst]
  | case2 k ks ih =>
      rw [dedupFirst]
      rw [List.nodup_cons] at h
      have hfilter : ks.filter (fun x => x != k) = ks := by
        apply List.filter_eq_self.2
        intro a ha
        simp only [bne_iff_ne, ne_eq, decide_eq_true_eq]
        intro hak
        exact h.1 (hak ▸ ha)
      rw [hfilter] at ih ⊢
      rw [ih h.2]

theorem count_dedupFirst_le_one (k : Nat) (l : List Nat) :
    (dedupFirst l).count k ≤ 1 :=
  List.nodup_iff_count_le_one.1 (nodup_dedupFirst l) k

theorem chunkList_flatten (n : Nat) (l : List Nat) :
    (chunkList n l).flatten = l := by
  induction l using chunkList.induct n with
  | case1 => rw [chunkList]; rfl
  | case2 k ks ih =>
      rw [chunkList, List.flatten_cons, ih, List.cons_append,
        List.take_append_drop]

theorem chunkList_batch_le (n : Nat) (hn : 0 < n) (l : List Nat) :
    ∀ b ∈ chunkList n l, b.length ≤ n := by
  induction l using chunkList.induct n with
  | case1 => simp [chunkList]
  | case2 k ks ih =>
      rw [chunkList]
      intro b hb
      rcases List.mem_cons.1 hb with hb | hb
      · subst hb
        simp only [List.length_cons, List.length_take]
        omega
      · exact ih b hb

theorem sum_length_le (n : Nat) (L : List (List Nat))
    (h : ∀ b ∈ L, b.length ≤ n) :
    (L.map List.length).sum ≤ n * L.length := by
  induction L with
  | nil => simp
  | cons b L ih =>
      simp only [List.map_cons, List.sum_cons, List.length_cons]
      have hb := h b (List.mem_cons_self b L)
      have hL := ih (fun c hc => h c (List.mem_cons_of_mem b hc))
      calc b.length + (L.map List.length).sum ≤ n + n * L.length := by omega
        _ = n * (L.length + 1) := by ring

theorem batchEntries_keys (b : List Nat) (rs : List DLResult) :
    (batchEntries b rs).map Prod.fst = b := by
  induction b generalizing rs with
  | nil => rfl
  | cons k ks ih =>
      cases rs with
      | nil => simpa [batchEntries] using ih []
      | cons r rest => simpa [batchEntries] using ih rest

/-! ### Lemmas about dispatch and resolution -/

theorem keyOccs_append (k : Nat) (c₁ c₂ : List (List Nat)) :
    keyOccs k (c₁ ++ c₂) = keyOccs k c₁ + keyOccs k c₂ := by
  simp [keyOccs]

theorem keyOccs_eq_count_flatten (k : Nat) (L : List (List Nat)) :
    keyOccs k L = L.flatten.count k := by
  simp [keyOccs, List.count_flatten]

theorem foldl_dispatch_calls (bf : List Nat → List DLResult)
    (L : List (List Nat)) (s : LoaderState) :
    (L.foldl (dispatchBatch bf) s).calls = s.calls ++ L := by
  induction L generalizing s with
  | nil => simp
  | cons b L ih => simp [List.foldl_cons, ih, dispatchBatch]

theorem foldl_dispatch_cache (bf : List Nat → List DLResult)
    (L : List (List Nat)) (s : LoaderState) :
    (L.foldl (dispatchBatch bf) s).cache =
      s.cache ++ (L.map (fun b => batchEntries b (bf b))).flatten := by
  induction L generalizing s with
  | nil => simp
  | cons b L ih => simp [List.foldl_cons, ih, dispatchBatch]

theorem resolveKeys_calls (bf : List Nat → List DLResult) (cap : Nat)
    (s : LoaderState) (keys : List Nat) :
    (resolveKeys bf cap s keys).calls =
      s.calls ++ dispatchedBatches cap s keys :=
  foldl_dispatch_calls bf _ s

theorem resolveKeys_cache (bf : List Nat → List DLResult) (cap : Nat)
    (s : LoaderState) (keys : List Nat) :
    (resolveKeys bf cap s keys).cache =
      s.cache ++ ((dispatchedBatches cap s keys).map
        (fun b => batchEntries b (bf b))).flatten :=
  foldl_dispatch_cache bf _ s

theorem flatten_entries_keys (bf : List Nat → List DLResult)
    (L : List (List Nat)) :
    ((L.map (fun b => batchEntries b (bf b))).flatten).map Prod.fst =
      L.flatten := by
  induction L with
  | nil => rfl
  | cons b L ih => simp [batchEntries_keys, ih]

theorem flatten_dispatchedBatches (cap : Nat) (s : LoaderState)
    (keys : List Nat) :
    (dispatchedBatches cap s keys).flatten = pendingKeys s.cache keys :=
  chunkList_flatten cap _

theorem not_mem_pendingKeys_of_cached (s : LoaderState) (keys : List Nat)
    (k : Nat) (h : (lookupK k s.cache).isSome) :
    k ∉ pendingKeys s.cache keys := by
  intro hk
  rw [pendingKeys, mem_dedupFirst, List.mem_filter] at hk
  have h₂ := hk.2
  rw [Option.isNone_iff_eq_none] at h₂
  rw [h₂] at h
  simp at h

/-! ### The per-key loader invariant -/

/-- For one key `k`: the Batch Fetch Function has seen `k` at most once,
and has not seen it at all while `k` is still unmemoized. -/
def LoaderInv (k : Nat) (s : LoaderState) : Prop :=
  keyOccs k s.calls ≤ 1 ∧ (lookupK k s.cache = none → keyOccs k s.calls = 0)

theorem keyOccs_dispatchedBatches (cap : Nat) (s : LoaderState)
    (keys : List Nat) (k : Nat) :
    keyOccs k (dispatchedBatches cap s keys) =
      (pendingKeys s.cache keys).count k := by
  rw [keyOccs_eq_count_flatten, flatten_dispatchedBatches]

theorem resolveKeys_inv (bf : List Nat → List DLResult) (cap : Nat)
    (s : LoaderState) (keys : List Nat) (k : Nat) (h : LoaderInv k s) :
    LoaderInv k (resolveKeys bf cap s keys) := by
  obtain ⟨h₁, h₂⟩ := h
  have hocc : keyOccs k (resolveKeys bf cap s keys).calls
      = keyOccs k s.calls + (pendingKeys s.cache keys).count k := by
    rw [resolveKeys_calls, keyOccs_append, keyOccs_dispatchedBatches]
  cases hc : lookupK k s.cache with
  | some r =>
      have hnp : k ∉ pendingKeys s.cache keys :=
        not_mem_pendingKeys_of_cached s keys k (by rw [hc]; rfl)
      have hcount : (pendingKeys s.cache keys).count k = 0 :=
        List.count_eq_zero.2 hnp
      constructor
      · rw [hocc, hcount]
        omega
      · intro hnone
        rw [resolveKeys_cache, lookupK_append_left k _ _ r hc] at hnone
        exact absurd hnone (by simp)
  | none =>
      have h₀ : keyOccs k s.calls = 0 := h₂ hc
      constructor
      · rw [hocc, h₀]
        have hcnt := count_dedupFirst_le_one k
          (keys.filter (fun j => (lookupK j s.cache).isNone))
        rw [pendingKeys]
        omega
      · intro hnone
        rw [resolveKeys_cache, lookupK_append_right k _ _ hc,
          lookupK_eq_none_iff, flatten_entries_keys,
          flatten_dispatchedBatches] at hnone
        rw [hocc, h₀, List.count_eq_zero.2 hnone]

theorem applyOp_inv (bf : List Nat → List DLResult) (cap : Nat)
    (s : LoaderState) (op : LoadOp) (k : Nat) (h : LoaderInv k s) :
    LoaderInv k (applyOp bf cap s op) := by
  cases op with
  | one j => exact resolveKeys_inv bf cap s [j] k h
  | many js => exact resolveKeys_inv bf cap s js k h

theorem foldl_ops_inv (bf : List Nat → List DLResult) (cap : Nat)
    (ops : List LoadOp) (k : Nat) :
    ∀ s, LoaderInv k s → LoaderInv k (ops.foldl (applyOp bf cap) s) := by
  induction ops with
  | nil => exact fun s h => h
  | cons op ops ih => exact fun s h => ih _ (applyOp_inv bf cap s op k h)

theorem loaderInv_init (k : Nat) : LoaderInv k initLoaderState :=
  ⟨by simp [keyOccs, initLoaderState], fun _ => by simp [keyOccs, initLoaderState]⟩

theorem pendingKeys_cached (s : LoaderState) (k : Nat) (r : DLResult)
    (h : lookupK k s.cache = some r) : pendingKeys s.cache [k] = [] := by
  rw [pendingKeys]
  have : List.filter (fun j => (lookupK j s.cache).isNone) [k] = [] := by
    simp [List.filter, h]
  rw [this, dedupFirst]

theorem resolveKeys_cached (bf : List Nat → List DLResult) (cap : Nat)
    (s : LoaderState) (k : Nat) (r : DLResult)
    (h : lookupK k s.cache = some r) : resolveKeys bf cap s [k] = s := by
  rw [resolveKeys, dispatchedBatches, pendingKeys_cached s k r h, chunkList]
  rfl

/-! ### Resolution from a fresh loader -/

theorem pendingKeys_init (keys : List Nat) :
    pendingKeys initLoaderState.cache keys = dedupFirst keys := by
  rw [pendingKeys]
  congr 1
  exact List.filter_eq_self.2 (fun a _ => rfl)

theorem dedupFirst_singleton (k : Nat) : dedupFirst [k] = [k] := by
  simp [dedupFirst]

theorem chunkList_singleton (n : Nat) (k : Nat) :
    chunkList n [k] = [[k]] := by
  simp [chunkList]

theorem batchEntries_singleton (k : Nat) (rs : List DLResult) :
    batchEntries [k] rs = [(k, rs.headD lengthMismatchResult)] := by
  cases rs <;> simp [batchEntries]

theorem resolveKeys_init_singleton (bf : List Nat → List DLResult)
    (cap : Nat) (k : Nat) :
    resolveKeys bf cap initLoaderState [k] =
      { cache := batchEntries [k] (bf [k]), calls := [[k]] } := by
  rw [resolveKeys, dispatchedBatches, pendingKeys_init, dedupFirst_singleton,
    chunkList_singleton]
  simp [dispatchBatch, initLoaderState]

theorem loadOne_init (bf : List Nat → List DLResult) (cap : Nat) (k : Nat) :
    loadOne bf cap initLoaderState k =
      ((bf [k]).headD lengthMismatchResult,
        { cache := batchEntries [k] (bf [k]), calls := [[k]] }) := by
  rw [loadOne, resolveKeys_init_singleton]
  simp [resolvedResult, batchEntries_singleton, lookupK]

theorem getLoaders_middleware (db : DB) (ctx : Ctx) :
    GetLoadersFromContext (DataLoaderMiddleware db ctx) = some (NewLoaders db) := by
  simp [GetLoadersFromContext, DataLoaderMiddleware, ctxWithValue, ctxValue,
    ctxEntriesValue]

theorem loadUserOutcome_eq (db : DB) (k : Nat) :
    loadUserOutcome db k =
      ((userBatchResult (GetUsersByIDs db [k]).1 (GetUsersByIDs db [k]).2 k).data,
       (userBatchResult (GetUsersByIDs db [k]).1 (GetUsersByIDs db [k]).2 k).error) := by
  simp [loadUserOutcome, LoadUser, getLoaders_middleware, NewLoaders,
    installedBatchFn, loadOne_init, userBatchFn]

theorem lookupK_usersMap (t : List (Nat × UserV)) (keys : List Nat) (k : Nat)
    (hk : k ∈ keys) :
    lookupK k ((t.filter (fun p => keys.contains p.1)).map
      (fun p => (p.1, some p.2))) = (lookupK k t).map some := by
  induction t with
  | nil => rfl
  | cons p t ih =>
      obtain ⟨k₂, v⟩ := p
      by_cases he : k = k₂
      · subst he
        simp [List.filter_cons, hk, lookupK]
      · by_cases h₂ : k₂ ∈ keys
        · simp [List.filter_cons, h₂, lookupK, he] at ih ⊢
          exact ih
        · simp [List.filter_cons, h₂, lookupK, he] at ih ⊢
          exact ih

theorem loadUserOutcome_success (db : DB) (k : Nat) (h : db.failure = none) :
    loadUserOutcome db k = (lookupK k db.table, none) := by
  rw [loadUserOutcome_eq]
  have hm := lookupK_usersMap db.table [k] k (by simp)
  simp only [GetUsersByIDs, h, userBatchResult, hm]
  cases lookupK k db.table <;> simp

theorem loadUserOutcome_failure (db : DB) (k : Nat) (e : Err)
    (h : db.failure = some e) : loadUserOutcome db k = (none, some e) := by
  rw [loadUserOutcome_eq]
  simp [GetUsersByIDs, h, userBatchResult]

theorem dispatchedBatches_nodup (cap : Nat) (s : LoaderState)
    (keys : List Nat) :
    (∀ b ∈ dispatchedBatches cap s keys, b.Nodup) ∧
    List.Pairwise List.Disjoint (dispatchedBatches cap s keys) := by
  have h : (dispatchedBatches cap s keys).flatten.Nodup := by
    rw [flatten_dispatchedBatches, pendingKeys]
    exact nodup_dedupFirst _
  exact List.nodup_flatten.1 h

theorem keyOccs_dispatchedBatches_le_one (cap : Nat) (s : LoaderState)
    (keys : List Nat) (k : Nat) :
    keyOccs k (dispatchedBatches cap s keys) ≤ 1 := by
  rw [keyOccs_dispatchedBatches, pendingKeys]
  exact count_dedupFirst_le_one k _

theorem LoadUsers_present (ctx : Ctx) (ks : List Nat) (L : LoadersV)
    (h : GetLoadersFromContext ctx = some L) :
    LoadUsers ctx ks =
      ((some (ks.map (fun k => (resolvedResult (loaderResolve L.userLoader ks) k).data)),
        ks.map (fun k => (resolvedResult (loaderResolve L.userLoader ks) k).error)),
       ctxSetLoaderState ctx L (loaderResolve L.userLoader ks)) := by
  simp only [LoadUsers, h, loadManyOp, loaderResolve, List.map_map]
  rfl

/-! ### The claims -/

/-- **C1**: For a fixed Loader Instance, the Batch Fetch Function is
invoked at most once for any given key over the instance's lifetime
(any sequence of `Load`/`LoadMany` calls starting from the fresh state),
and after key `k` resolves to outcome `r`, every subsequent `Load(k)` on
the same instance returns that memoized outcome with the state unchanged
— no new Batch Fetch Function invocation. -/
theorem batchFn_at_most_once_per_key (bf : List Nat → List DLResult)
    (cap : Nat) (ops : List LoadOp) (k : Nat) :
    keyOccs k (runOps bf cap ops initLoaderState).calls ≤ 1 ∧
    (∀ (s : LoaderState) (r : DLResult), lookupK k s.cache = some r →
      loadOne bf cap s k = (r, s)) := by
  refine ⟨(foldl_ops_inv bf cap ops k initLoaderState (loaderInv_init k)).1, ?_⟩
  intro s r h
  simp only [loadOne, resolveKeys_cached bf cap s k r h]
  simp [resolvedResult, h]

/-- Witness for C1 at a concrete instance: a loader that already memoized
key 1 returns the memoized outcome from a further `Load(1)`, untouched
state included. -/
theorem batchFn_at_most_once_per_key_witness :
    loadOne (installedBatchFn (NewLoaders sampleDB).userLoader) 100
      { cache := [(1, { data := some sampleUser, error := none })], calls := [[1]] } 1 =
    ({ data := some sampleUser, error := none },
      { cache := [(1, { data := some sampleUser, error := none })], calls := [[1]] }) :=
  (batchFn_at_most_once_per_key (installedBatchFn (NewLoaders sampleDB).userLoader)
    100 [] 1).2 _ _ (by decide)

/-- **C3**: If the backing multi-key fetch itself fails, the batch
function returns `len(keys)` results, each carrying that same error
(and no data). -/
theorem whole_batch_failure
    (fetch : List Nat → List (Nat × Option UserV) × Option Err)
    (keys : List Nat) (m : List (Nat × Option UserV)) (e : Err)
    (h : fetch keys = (m, some e)) :
    (userBatchFn fetch keys).length = keys.length ∧
    ∀ r ∈ userBatchFn fetch keys, r = { data := none, error := some e } := by
  constructor
  · simp [userBatchFn]
  · intro r hr
    simp only [userBatchFn, h, List.mem_map] at hr
    obtain ⟨k, _, hk⟩ := hr
    rw [← hk]
    rfl

/-- Witness for C3: a three-key batch over a failing store yields three
results, all carrying the store's error. -/
theorem whole_batch_failure_witness :
    (userBatchFn (GetUsersByIDs failDB) [1, 2, 3]).length = 3 ∧
    ∀ r ∈ userBatchFn (GetUsersByIDs failDB) [1, 2, 3],
      r = { data := none, error := some "db down" } :=
  whole_batch_failure (GetUsersByIDs failDB) [1, 2, 3] [] "db down" (by decide)

/-- **C4**: With no Loader Registry attached to the context (no value
under the loader key, a value of another type, or a nil pointer —
exactly the cases where `GetLoadersFromContext` yields `none`), both
`LoadUser` and `LoadUsers` fail fast with the
"loaders not found in context" error and leave the context — hence every
loader state and its invocation log — untouched: no batch fetch and no
unbatched fetch happens. -/
theorem config_error_fails_fast (ctx : Ctx) (k : Nat) (ks : List Nat)
    (h : GetLoadersFromContext ctx = none) :
    LoadUser ctx k = ((none, some loadersNotFoundErr), ctx) ∧
    LoadUsers ctx ks = ((none, [some loadersNotFoundErr]), ctx) := by
  constructor <;> simp only [LoadUser, LoadUsers, h]

/-- Witness for C4: a context carrying only a foreign value under a
foreign key has no registry, so both calls fail fast on it. -/
theorem config_error_fails_fast_witness :
    LoadUser { entries := [(CtxKey.otherKey "request_id", CtxValue.otherVal "42")] } 1 =
      ((none, some loadersNotFoundErr),
        { entries := [(CtxKey.otherKey "request_id", CtxValue.otherVal "42")] }) ∧
    LoadUsers { entries := [(CtxKey.otherKey "request_id", CtxValue.otherVal "42")] } [1, 2] =
      ((none, [some loadersNotFoundErr]),
        { entries := [(CtxKey.otherKey "request_id", CtxValue.otherVal "42")] }) :=
  config_error_fails_fast _ 1 [1, 2] (by decide)

/-- **C5**: For every input key slice, the user batch function returns a
result slice of equal length, whose `i`-th entry is the per-key outcome
computed for the `i`-th key. -/
theorem batch_results_aligned
    (fetch : List Nat → List (Nat × Option UserV) × Option Err)
    (keys : List Nat) :
    (userBatchFn fetch keys).length = keys.length ∧
    ∀ i : Nat, (userBatchFn fetch keys)[i]? =
      (keys[i]?).map (userBatchResult (fetch keys).1 (fetch keys).2) := by
  constructor
  · simp [userBatchFn]
  · intro i
    simp [userBatchFn, List.getElem?_map]

/-- **C10**: When no Loader Registry is attached, `LoadUsers` returns a
nil values slice and an error slice of length exactly one — the single
configuration error — regardless of how many keys were requested. -/
theorem LoadUsers_config_error_single (ctx : Ctx) (ks : List Nat)
    (h : GetLoadersFromContext ctx = none) :
    (LoadUsers ctx ks).1.1 = none ∧
    (LoadUsers ctx ks).1.2 = [some loadersNotFoundErr] ∧
    (LoadUsers ctx ks).1.2.length = 1 := by
  simp [LoadUsers, h]

/-- Witness for C10: five requested keys, no registry — still exactly one
error and a nil values slice. -/
theorem LoadUsers_config_error_single_witness :
    (LoadUsers emptyCtx [1, 2, 3, 4, 5]).1.1 = none ∧
    (LoadUsers emptyCtx [1, 2, 3, 4, 5]).1.2 = [some loadersNotFoundErr] ∧
    (LoadUsers emptyCtx [1, 2, 3, 4, 5]).1.2.length = 1 :=
  LoadUsers_config_error_single emptyCtx [1, 2, 3, 4, 5] (by decide)

/-- **C2**: A key for which the backing repository reports neither a
value nor an error resolves to the absent result (`Data` nil, `Error`
nil) — at the batch-function level and through `LoadUser` — whereas a
backing-store failure resolves the key to a non-nil error; the two
outcomes are distinct. -/
theorem not_found_vs_error :
    (∀ (m : List (Nat × Option UserV)) (k : Nat), lookupK k m = none →
        userBatchResult m none k = { data := none, error := none }) ∧
    (∀ (m : List (Nat × Option UserV)) (k : Nat) (e : Err),
        userBatchResult m (some e) k = { data := none, error := some e }) ∧
    (∀ (db : DB) (k : Nat), db.failure = none → lookupK k db.table = none →
        loadUserOutcome db k = (none, none)) ∧
    (∀ (db : DB) (k : Nat) (e : Err), db.failure = some e →
        loadUserOutcome db k = (none, some e)) ∧
    (∀ e : Err, ((none, none) : Option UserV × Option Err) ≠ (none, some e)) := by
  refine ⟨?_, ?_, ?_, ?_, ?_⟩
  · intro m k h
    simp [userBatchResult, h]
  · intro m k e
    rfl
  · intro db k h₁ h₂
    rw [loadUserOutcome_success db k h₁, h₂]
  · intro db k e h
    exact loadUserOutcome_failure db k e h
  · intro e
    simp

/-- Witness for C2: key 2 exists nowhere — against the healthy store it
loads as `(nil, nil)`, against the failing store as the store's error. -/
theorem not_found_vs_error_witness :
    userBatchResult [] none 2 = { data := none, error := none } ∧
    loadUserOutcome sampleDB 2 = (none, none) ∧
    loadUserOutcome failDB 2 = (none, some "db down") :=
  ⟨not_found_vs_error.1 [] 2 (by decide),
   not_found_vs_error.2.2.1 sampleDB 2 (by decide) (by decide),
   not_found_vs_error.2.2.2.1 failDB 2 "db down" (by decide)⟩

/-- **C6**: With a registry attached, `LoadUsers` returns one value and
one error per input position — position `i` carrying the resolved
outcome of the key at position `i`, so duplicate keys each get their own
copy of the same outcome — while the underlying fetch is deduplicated:
every dispatched batch is duplicate-free and no key is dispatched more
than once. -/
theorem LoadUsers_positionally_aligned (ctx : Ctx) (ks : List Nat)
    (L : LoadersV) (h : GetLoadersFromContext ctx = some L) :
    (LoadUsers ctx ks).1.1 =
      some (ks.map (fun k => (resolvedResult (loaderResolve L.userLoader ks) k).data)) ∧
    (LoadUsers ctx ks).1.2 =
      ks.map (fun k => (resolvedResult (loaderResolve L.userLoader ks) k).error) ∧
    (ks.map (fun k => (resolvedResult (loaderResolve L.userLoader ks) k).data)).length
      = ks.length ∧
    (∀ b ∈ dispatchedBatches L.userLoader.capacity L.userLoader.state ks, b.Nodup) ∧
    (∀ k, keyOccs k (dispatchedBatches L.userLoader.capacity L.userLoader.state ks) ≤ 1) := by
  have hL := LoadUsers_present ctx ks L h
  exact ⟨by rw [hL], by rw [hL], by simp,
    (dispatchedBatches_nodup _ _ _).1,
    fun k => keyOccs_dispatchedBatches_le_one _ _ _ k⟩

/-- Witness for C6 on the key list `[1, 2, 1]` (key 1 duplicated) against
a freshly wired unit of work. -/
theorem LoadUsers_positionally_aligned_witness :
    (LoadUsers (DataLoaderMiddleware sampleDB emptyCtx) [1, 2, 1]).1.1 =
      some ([1, 2, 1].map (fun k =>
        (resolvedResult (loaderResolve (NewLoaders sampleDB).userLoader [1, 2, 1]) k).data)) ∧
    (LoadUsers (DataLoaderMiddleware sampleDB emptyCtx) [1, 2, 1]).1.2 =
      [1, 2, 1].map (fun k =>
        (resolvedResult (loaderResolve (NewLoaders sampleDB).userLoader [1, 2, 1]) k).error) ∧
    ([1, 2, 1].map (fun k =>
        (resolvedResult (loaderResolve (NewLoaders sampleDB).userLoader [1, 2, 1]) k).data)).length
      = [1, 2, 1].length ∧
    (∀ b ∈ dispatchedBatches (NewLoaders sampleDB).userLoader.capacity
        (NewLoaders sampleDB).userLoader.state [1, 2, 1], b.Nodup) ∧
    (∀ k, keyOccs k (dispatchedBatches (NewLoaders sampleDB).userLoader.capacity
        (NewLoaders sampleDB).userLoader.state [1, 2, 1]) ≤ 1) :=
  LoadUsers_positionally_aligned (DataLoaderMiddleware sampleDB emptyCtx)
    [1, 2, 1] (NewLoaders sampleDB) (by decide)

/-- **C7**: The user loader is configured with batch capacity 100, and a
load of `2N + 1` distinct uncached keys under capacity `N` dispatches the
batches `dispatchedBatches` — at least 3 invocations of the Batch Fetch
Function, each with at most `N` keys, jointly covering exactly the
requested key set with no key in two invocations. -/
theorem batch_capacity_splitting :
    (∀ db : DB, (NewLoaders db).userLoader.capacity = 100) ∧
    (∀ (N : Nat) (ks : List Nat) (bf : List Nat → List DLResult),
      0 < N → ks.Nodup → ks.length = 2 * N + 1 →
      (resolveKeys bf N initLoaderState ks).calls =
        dispatchedBatches N initLoaderState ks ∧
      3 ≤ (dispatchedBatches N initLoaderState ks).length ∧
      (∀ b ∈ dispatchedBatches N initLoaderState ks, b.length ≤ N) ∧
      (∀ k, k ∈ (dispatchedBatches N initLoaderState ks).flatten ↔ k ∈ ks) ∧
      (∀ k, keyOccs k (dispatchedBatches N initLoaderState ks) ≤ 1)) := by
  refine ⟨fun db => rfl, ?_⟩
  intro N ks bf hN hnd hlen
  have hdb : dispatchedBatches N initLoaderState ks = chunkList N ks := by
    rw [dispatchedBatches, pendingKeys_init, dedupFirst_eq_self ks hnd]
  refine ⟨?_, ?_, ?_, ?_, ?_⟩
  · rw [resolveKeys_calls]
    simp [initLoaderState]
  · rw [hdb]
    by_contra hlt
    push_neg at hlt
    have hle : (chunkList N ks).length ≤ 2 := by omega
    have hsum : ((chunkList N ks).map List.length).sum ≤
        N * (chunkList N ks).length :=
      sum_length_le N _ (chunkList_batch_le N hN ks)
    have hflat : ((chunkList N ks).map List.length).sum = ks.length := by
      rw [← List.length_flatten, chunkList_flatten]
    have hmul : N * (chunkList N ks).length ≤ N * 2 :=
      Nat.mul_le_mul_left N hle
    omega
  · rw [hdb]
    exact chunkList_batch_le N hN ks
  · intro k
    rw [hdb, chunkList_flatten]
  · intro k
    rw [hdb, keyOccs_eq_count_flatten, chunkList_flatten]
    exact List.nodup_iff_count_le_one.1 hnd k

/-- Witness for C7 at capacity 1 with the 3 = 2·1+1 distinct keys
`[10, 20, 30]`. -/
theorem batch_capacity_splitting_witness :
    (resolveKeys (installedBatchFn (NewLoaders sampleDB).userLoader) 1
        initLoaderState [10, 20, 30]).calls =
      dispatchedBatches 1 initLoaderState [10, 20, 30] ∧
    3 ≤ (dispatchedBatches 1 initLoaderState [10, 20, 30]).length ∧
    (∀ b ∈ dispatchedBatches 1 initLoaderState [10, 20, 30], b.length ≤ 1) ∧
    (∀ k, k ∈ (dispatchedBatches 1 initLoaderState [10, 20, 30]).flatten ↔
      k ∈ [10, 20, 30]) ∧
    (∀ k, keyOccs k (dispatchedBatches 1 initLoaderState [10, 20, 30]) ≤ 1) :=
  batch_capacity_splitting.2 1 [10, 20, 30]
    (installedBatchFn (NewLoaders sampleDB).userLoader)
    (by decide) (by decide) (by decide)

/-- **C8, counterexample**: the claimed triple does not exist — no
found-flag is derivable from what `LoadUser` returns.  With the backing
store failing, `LoadUser` returns the identical pair whether or not the
entity is present, so no function of the returned data can report
presence. -/
theorem no_found_flag : ¬ hasFoundFlag := by
  rintro ⟨flag, hflag⟩
  have h₁ := hflag failDB 1
  have h₂ := hflag emptyFailDB 1
  rw [loadUserOutcome_failure failDB 1 "db down" rfl] at h₁
  rw [loadUserOutcome_failure emptyFailDB 1 "db down" rfl] at h₂
  have e₁ : (lookupK 1 failDB.table).isSome = true := by decide
  have e₂ : (lookupK 1 emptyFailDB.table).isSome = false := by decide
  rw [e₁] at h₁
  rw [e₂] at h₂
  rw [h₁] at h₂
  exact absurd h₂ (by decide)

/-- **C8 as amended**: the consumer-facing `LoadUser` returns a pair
(value, error), not a triple: when the backing fetch succeeds the pair
is the table lookup with nil error (present ⇒ the user with nil error,
absent ⇒ nil value with nil error), and a whole-call failure yields a
nil value with that error; there is no separate found-flag component. -/
theorem LoadUser_pair_surface (db : DB) (k : Nat) :
    (db.failure = none → loadUserOutcome db k = (lookupK k db.table, none)) ∧
    (∀ e : Err, db.failure = some e → loadUserOutcome db k = (none, some e)) :=
  ⟨fun h => loadUserOutcome_success db k h,
   fun e h => loadUserOutcome_failure db k e h⟩

/-- Witness for the amended C8: the healthy store yields the pair from
the table lookup; the failing store yields the error pair. -/
theorem LoadUser_pair_surface_witness :
    loadUserOutcome sampleDB 1 = (lookupK 1 sampleDB.table, none) ∧
    loadUserOutcome failDB 1 = (none, some "db down") :=
  ⟨(LoadUser_pair_surface sampleDB 1).1 rfl,
   (LoadUser_pair_surface failDB 1).2 "db down" rfl⟩

/-- **C9**: Every middleware invocation attaches a freshly built
registry (`NewLoaders` over that request's repository closure) whose
loader state is the fresh one; consequently no key memoized during one
unit of work — whatever operations it ran — is memoized in a registry
newly created for another unit of work. -/
theorem middleware_fresh_per_request :
    (∀ (db : DB) (ctx : Ctx),
      GetLoadersFromContext (DataLoaderMiddleware db ctx) = some (NewLoaders db)) ∧
    (∀ db : DB, (NewLoaders db).userLoader.state = initLoaderState) ∧
    (∀ (db₁ db₂ : DB) (ops : List LoadOp) (k : Nat) (r : DLResult),
      lookupK k (runOps (installedBatchFn (NewLoaders db₁).userLoader) 100 ops
        initLoaderState).cache = some r →
      lookupK k (NewLoaders db₂).userLoader.state.cache = none) :=
  ⟨getLoaders_middleware, fun _ => rfl, fun _ _ _ _ _ _ => rfl⟩

/-- Witness for C9: key 1, memoized by the first unit of work after
`Load(1)`, is absent from a second, freshly created registry. -/
theorem middleware_fresh_per_request_witness :
    lookupK 1 (NewLoaders emptyFailDB).userLoader.state.cache = none :=
  middleware_fresh_per_request.2.2 sampleDB emptyFailDB [LoadOp.one 1] 1
    { data := some sampleUser, error := none }
    (by simp [runOps, applyOp, loadOne_init, installedBatchFn, NewLoaders,
      userBatchFn, GetUsersByIDs, sampleDB, userBatchResult, lookupK, batchEntries])
